import Mathlib

/-!
Verification development for the slot booking and waitlist engine.

The data model and operations below are a shallow embedding of the server's
database layer (`initDB` table schema, `bookSlot`, `cancelBooking`) and the
slot materializer (`startOfWeek`, `generateWeekSlots`).  Timestamps are
modelled as integers (minutes or milliseconds since an epoch; only order and
differences matter), the SQLite tables as lists of rows, and each
transactional operation as a pure function from a database state to an
`Except` of a typed error code or a result together with the new state.
Columns that no modelled operation reads (`email`, `passwordHash`,
`notificationsEnabled`, `createdAt`, audit log) are omitted.
-/

namespace Engine

inductive Role
  | student
  | ta
  | admin
deriving DecidableEq, Repr

/-- Row of the `users` table (columns read by the engine). -/
structure User where
  id : String
  name : String
  role : Role
deriving DecidableEq, Repr

/-- Row of the `resources` table. -/
structure Resource where
  id : String
  name : String
  capacity : Nat
deriving DecidableEq, Repr

/-- Row of the `slots` table; `end_` embeds the SQL column `end`. -/
structure Slot where
  id : String
  resourceId : String
  start : Int
  end_ : Int
  blocked : Bool
  blockedLabel : Option String
deriving DecidableEq, Repr

/-- Booking status: the schema CHECK admits exactly `confirmed` and
`waitlisted`. -/
inductive BStatus
  | confirmed
  | waitlisted
deriving DecidableEq, Repr

/-- Row of the `bookings` table. -/
structure Booking where
  id : String
  userId : String
  slotId : String
  status : BStatus
  waitlistPosition : Option Nat
deriving DecidableEq, Repr

/-- Row of the `recurringRules` table. -/
structure RecurringRule where
  id : String
  resourceId : String
  dayOfWeek : Int
  startHour : Int
  endHour : Int
  label : String
deriving DecidableEq, Repr

/-- Row of the `blackoutDates` table. -/
structure Blackout where
  id : String
  resourceId : String
  start : Int
  end_ : Int
  reason : String
deriving DecidableEq, Repr

/-- The typed error codes thrown by the engine (`errors.js` / literal throws
in `db.js`). -/
inductive ErrCode
  | NOT_FOUND
  | SLOT_BLOCKED
  | PAST_SLOT
  | ALREADY_BOOKED
  | OVERLAP_CONFLICT
  | NOT_ALLOWED
  | GRACE_PERIOD
deriving DecidableEq, Repr

/-- The database state: one list per table. -/
structure DBState where
  users : List User
  resources : List Resource
  slots : List Slot
  bookings : List Booking
  recurringRules : List RecurringRule
  blackouts : List Blackout
deriving DecidableEq, Repr

/-- Result of `bookSlot`: `{status: 'confirmed'}` or
`{status: 'waitlisted', position}`. -/
inductive BookOutcome
  | confirmed
  | waitlisted (position : Nat)
deriving DecidableEq, Repr

/-- Result of `cancelBooking`: `{status: 'canceled', promoted?}`. -/
structure CancelOutcome where
  promoted : Option String
deriving DecidableEq, Repr

/-- `COUNT(b.id) ... WHERE b.slotId = slotId AND b.status = 'confirmed'`. -/
def confirmedCount (bs : List Booking) (slotId : String) : Nat :=
  bs.countP (fun b => b.slotId == slotId && b.status == BStatus.confirmed)

/-- `SELECT MAX(waitlistPosition) ... WHERE slotId = ? AND status = 'waitlisted'`
with `maxPosition?.max || 0` (SQL MAX ignores NULLs; an absent maximum reads
as 0). -/
def maxWaitlistPosition (bs : List Booking) (slotId : String) : Nat :=
  (bs.filter (fun b => b.slotId == slotId && b.status == BStatus.waitlisted)).foldl
    (fun m b => max m (b.waitlistPosition.getD 0)) 0

/-- `SELECT * FROM bookings WHERE userId = ? AND slotId = ?` read as a
truthiness test. -/
def hasExistingB (st : DBState) (userId slotId : String) : Bool :=
  st.bookings.any (fun b => b.userId == userId && b.slotId == slotId)

/-- The `hasOverlap` query: another confirmed booking of the user whose slot
is on the same resource and intersects `[slot.start, slot.end)`
(`s.start < ? AND s.end > ?` with the candidate slot's end and start). -/
def hasOverlapB (st : DBState) (userId : String) (slot : Slot) : Bool :=
  st.bookings.any (fun b =>
    b.userId == userId && b.status == BStatus.confirmed &&
    st.slots.any (fun s => s.id == b.slotId && s.resourceId == slot.resourceId &&
      decide (s.start < slot.end_) && decide (s.end_ > slot.start)))

/-- `bookSlot(userId, slotId)` from `db.js`, with the transaction's clock
reading passed as `now` and the generated `nanoid(10)` passed as `newId`. -/
def bookSlot (now : Int) (newId : String) (userId slotId : String) (st : DBState) :
    Except ErrCode (BookOutcome × DBState) :=
  match st.slots.find? (fun s => s.id == slotId) with
  | none => .error .NOT_FOUND
  | some slot =>
    match st.resources.find? (fun r => r.id == slot.resourceId) with
    | none => .error .NOT_FOUND
    | some resource =>
      if slot.blocked then .error .SLOT_BLOCKED
      else if hasExistingB st userId slotId then
        .error .ALREADY_BOOKED
      else if hasOverlapB st userId slot then
        .error .OVERLAP_CONFLICT
      else if decide (slot.start < now) then .error .PAST_SLOT
      else if decide (confirmedCount st.bookings slotId < resource.capacity) then
        .ok (.confirmed,
          { st with bookings := st.bookings ++ [⟨newId, userId, slotId, .confirmed, none⟩] })
      else
        .ok (.waitlisted (maxWaitlistPosition st.bookings slotId + 1),
          { st with bookings :=
              st.bookings ++
                [⟨newId, userId, slotId, .waitlisted,
                  some (maxWaitlistPosition st.bookings slotId + 1)⟩] })

/-- Sort key used by `ORDER BY waitlistPosition ASC` in SQLite: NULL orders
before every integer. -/
def posKey : Option Nat → Nat
  | none => 0
  | some p => p + 1

/-- One comparison step of the `ORDER BY waitlistPosition ASC LIMIT 1` scan:
keep the row with the smaller sort key, first occurrence winning ties. -/
def minStep (acc : Option Booking) (b : Booking) : Option Booking :=
  match acc with
  | none => some b
  | some a => if posKey b.waitlistPosition < posKey a.waitlistPosition then some b else some a

/-- `SELECT ... ORDER BY waitlistPosition ASC LIMIT 1`: the first row with
the smallest sort key. -/
def minWaitlisted (bs : List Booking) : Option Booking :=
  bs.foldl minStep none

/-- SQL comparison `waitlistPosition > ?`: NULL on either side matches no
row. -/
def posGT (p q : Option Nat) : Bool :=
  match p, q with
  | some a, some b => decide (b < a)
  | _, _ => false

/-- `DELETE FROM bookings WHERE id = ?`. -/
def deleteB (bookingId : String) (bs : List Booking) : List Booking :=
  bs.filter (fun b => !(b.id == bookingId))

/-- `UPDATE bookings SET status = 'confirmed', waitlistPosition = NULL WHERE
id = ?`. -/
def promoteB (nextId : String) (bs : List Booking) : List Booking :=
  bs.map (fun b =>
    if b.id == nextId then { b with status := BStatus.confirmed, waitlistPosition := none }
    else b)

/-- `UPDATE bookings SET waitlistPosition = waitlistPosition - 1 WHERE
slotId = ? AND status = 'waitlisted' AND waitlistPosition > ?`. -/
def reindexB (slotId : String) (nextPos : Option Nat) (bs : List Booking) : List Booking :=
  bs.map (fun b =>
    if b.slotId == slotId && b.status == BStatus.waitlisted && posGT b.waitlistPosition nextPos then
      { b with waitlistPosition := b.waitlistPosition.map (fun p => p - 1) }
    else b)

/-- The waitlist of a slot as the promotion query sees it, drawn from the
table after the DELETE. -/
def slotWaitlist (slotId : String) (bs : List Booking) : List Booking :=
  bs.filter (fun b => b.slotId == slotId && b.status == BStatus.waitlisted)

/-- `cancelBooking(bookingId, actorId)` from `db.js`, with the clock reading
passed as `now` and the configured grace window (`GRACE_MINUTES * 60 * 1000`)
passed as `graceMsec`. -/
def cancelBooking (now graceMsec : Int) (bookingId actorId : String) (st : DBState) :
    Except ErrCode (CancelOutcome × DBState) :=
  match st.bookings.find? (fun b => b.id == bookingId) with
  | none => .error .NOT_FOUND
  | some booking =>
    match st.slots.find? (fun s => s.id == booking.slotId) with
    | none => .error .NOT_FOUND
    | some slot =>
      match st.users.find? (fun u => u.id == actorId) with
      | none => .error .NOT_FOUND
      | some actor =>
        if booking.userId != actorId && actor.role == Role.student then
          .error .NOT_ALLOWED
        else if booking.status == BStatus.confirmed &&
            (decide (now > slot.start) || decide (slot.start - now < graceMsec)) then
          .error .GRACE_PERIOD
        else if booking.status == BStatus.confirmed then
          match minWaitlisted (slotWaitlist booking.slotId (deleteB bookingId st.bookings)) with
          | some next =>
            .ok (⟨some next.userId⟩,
              { st with bookings :=
                  (reindexB booking.slotId next.waitlistPosition
                    (promoteB next.id (deleteB bookingId st.bookings))) })
          | none => .ok (⟨none⟩, { st with bookings := deleteB bookingId st.bookings })
        else .ok (⟨none⟩, { st with bookings := deleteB bookingId st.bookings })

/-! ### Slot materializer (`slots.js`: `startOfWeek`, `generateWeekSlots`)

Timestamps are minutes since the JavaScript epoch (1970-01-01T00:00, a
Thursday), in the server's (assumed UTC) timezone; a day is 1440 minutes.
`Date` arithmetic (`getDay`, `setDate`, `setHours`, `setMinutes`) becomes
integer arithmetic on that scale; seconds, which `setHours`/`setMinutes`
leave untouched, carry no information the engine reads.  ISO-8601 string
comparison of stored timestamps agrees with the numeric order. -/

/-- Materializer configuration: `OPEN_TIME`, `CLOSE_TIME` (hours) and
`SLOT_LENGTH` (minutes), defaulting to 8, 20 and 120. -/
structure GenConfig where
  openTime : Int
  closeTime : Int
  slotLength : Int
deriving DecidableEq, Repr

/-- `Date.prototype.getDay` (0 = Sunday .. 6 = Saturday): day index since the
epoch, shifted because the epoch fell on a Thursday (day 4). -/
def dow (t : Int) : Int :=
  (Int.fdiv t 1440 + 4) % 7

/-- `startOfWeek` from `slots.js`: move to the Monday of the week of `t`
(`d.getDate() - day + (day === 0 ? -6 : 1)`), keeping the time of day. -/
def startOfWeek (t : Int) : Int :=
  t - (if dow t == 0 then 6 else dow t - 1) * 1440

/-- Minutes past local midnight of a timestamp (`getHours() * 60 +
getMinutes()`). -/
def minuteOfDay (t : Int) : Int :=
  t % 1440

/-- `rules.some(...)`: the slot's weekday matches and `[slotStartHour,
slotEndHour] ⊆ [rule.startHour, rule.endHour]`.  The fractional-hour
comparisons `h + m/60 ≥ H` are scaled by 60 into exact integer form. -/
def isRecurringBlocked (rules : List RecurringRule) (dayOfWeek : Int)
    (slotStart slotEnd : Int) : Bool :=
  rules.any (fun rule =>
    rule.dayOfWeek == dayOfWeek &&
    decide (rule.startHour * 60 ≤ minuteOfDay slotStart) &&
    decide (minuteOfDay slotEnd ≤ rule.endHour * 60))

/-- `blackouts.some(...)`: the slot interval lies entirely inside the
blackout window. -/
def isBlackedOut (blackouts : List Blackout) (slotStart slotEnd : Int) : Bool :=
  blackouts.any (fun b => decide (b.start ≤ slotStart) && decide (slotEnd ≤ b.end_))

/-- `blockedLabel`: the first rule with a matching weekday when
recurring-blocked, else the first fully covering blackout's reason. -/
def computeLabel (rules : List RecurringRule) (blackouts : List Blackout)
    (dayOfWeek : Int) (slotStart slotEnd : Int) (isRec : Bool) : Option String :=
  if isRec then (rules.find? (fun r => r.dayOfWeek == dayOfWeek)).map (fun r => r.label)
  else
    (blackouts.find? (fun b => decide (b.start ≤ slotStart) && decide (slotEnd ≤ b.end_))).map
      (fun b => b.reason)

/-- Start of the slot at day offset `off`, index `i`:
`setHours(openTime + floor(i*len/60)); setMinutes((i*len) % 60)` applied to
the materialization window's day `off`. -/
def slotStartAt (cfg : GenConfig) (weekStart : Int) (off i : Nat) : Int :=
  Int.fdiv (weekStart + (off : Int) * 1440) 1440 * 1440 +
    (cfg.openTime + Int.fdiv ((i : Int) * cfg.slotLength) 60) * 60 +
    ((i : Int) * cfg.slotLength) % 60

/-- `dayStart.getDay() || 7`: weekday of day `off` of the window, as 1-7. -/
def dayOfWeekAt (weekStart : Int) (off : Nat) : Int :=
  if dow (weekStart + (off : Int) * 1440) == 0 then 7 else dow (weekStart + (off : Int) * 1440)

/-- `Math.floor((closeTime - openTime) * 60 / slotLength)` clamped at 0. -/
def slotsPerDay (cfg : GenConfig) : Nat :=
  (Int.fdiv ((cfg.closeTime - cfg.openTime) * 60) cfg.slotLength).toNat

/-- The slot row the materializer computes for day `off`, index `i` (the
`nanoid(10)` of iteration `off * slotsPerDay + i` is supplied by `ids`). -/
def mkWeekSlot (cfg : GenConfig) (rules : List RecurringRule) (blackouts : List Blackout)
    (resourceId : String) (weekStart : Int) (ids : Nat → String) (off i : Nat) : Slot :=
  let sStart := slotStartAt cfg weekStart off i
  let sEnd := sStart + cfg.slotLength
  let isRec := isRecurringBlocked rules (dayOfWeekAt weekStart off) sStart sEnd
  { id := ids (off * slotsPerDay cfg + i)
    resourceId := resourceId
    start := sStart
    end_ := sEnd
    blocked := isRec || isBlackedOut blackouts sStart sEnd
    blockedLabel := computeLabel rules blackouts (dayOfWeekAt weekStart off) sStart sEnd isRec }

/-- All slot rows computed by the two nested loops of `generateWeekSlots`. -/
def computeWeekSlots (cfg : GenConfig) (rules : List RecurringRule)
    (blackouts : List Blackout) (resourceId : String) (weekStart : Int)
    (ids : Nat → String) : List Slot :=
  (List.range 7).flatMap (fun off =>
    (List.range (slotsPerDay cfg)).map (fun i =>
      mkWeekSlot cfg rules blackouts resourceId weekStart ids off i))

/-- The blackout fetch of `generateWeekSlots`:
`WHERE resourceId = ? AND start >= weekStart AND end <= weekStart + 7 days`. -/
def weekBlackouts (blackouts : List Blackout) (resourceId : String) (weekStart : Int) :
    List Blackout :=
  blackouts.filter (fun b =>
    b.resourceId == resourceId && decide (weekStart ≤ b.start) &&
      decide (b.end_ ≤ weekStart + 7 * 1440))

/-- The slot rows one run of `generateWeekSlots` computes against state `st`. -/
def genEntries (cfg : GenConfig) (ids : Nat → String) (resourceId : String)
    (weekStartDate : Int) (st : DBState) : List Slot :=
  computeWeekSlots cfg
    (st.recurringRules.filter (fun r => r.resourceId == resourceId))
    (weekBlackouts st.blackouts resourceId (startOfWeek weekStartDate))
    resourceId (startOfWeek weekStartDate) ids

/-- The upsert key `(resourceId, start, end)` of a slot row. -/
def slotKey (s : Slot) : String × Int × Int :=
  (s.resourceId, s.start, s.end_)

/-- The `ON CONFLICT(resourceId, start, end)` match test. -/
def slotKeyMatch (e s : Slot) : Bool :=
  s.resourceId == e.resourceId && s.start == e.start && s.end_ == e.end_

/-- `INSERT ... ON CONFLICT(resourceId, start, end) DO UPDATE SET blocked,
blockedLabel`: update the (unique) conflicting row, else append the new row. -/
def upsertSlot (e : Slot) : List Slot → List Slot
  | [] => [e]
  | s :: rest =>
    if slotKeyMatch e s then
      { s with blocked := e.blocked, blockedLabel := e.blockedLabel } :: rest
    else s :: upsertSlot e rest

/-- `generateWeekSlots(resourceId, weekStartDate)` from `slots.js` as a state
transformer (the returned row list is a read; the state is what matters). -/
def generateWeekSlots (cfg : GenConfig) (ids : Nat → String) (resourceId : String)
    (weekStartDate : Int) (st : DBState) : Except ErrCode DBState :=
  match st.resources.find? (fun r => r.id == resourceId) with
  | none => .error .NOT_FOUND
  | some _ =>
    .ok { st with
          slots := (genEntries cfg ids resourceId weekStartDate st).foldl
            (fun acc e => upsertSlot e acc) st.slots }

/-! ### Specification-level predicates -/

/-- The `waitlistPosition` values of a slot's waitlisted bookings, in table
order (positions are non-NULL on waitlisted rows; a NULL would read as 0). -/
def waitlistPositions (bs : List Booking) (slotId : String) : List Nat :=
  (bs.filter (fun b => b.slotId == slotId && b.status == BStatus.waitlisted)).map
    (fun b => b.waitlistPosition.getD 0)

/-- Dense-waitlist check: for N waitlisted bookings of the slot, the
positions are exactly the set 1..N — each value of 1..N occurs exactly once
(and hence, the length being N, nothing else occurs). -/
def denseWaitlist (bs : List Booking) (slotId : String) : Bool :=
  (List.range (waitlistPositions bs slotId).length).all
    (fun k => (waitlistPositions bs slotId).count (k + 1) == 1)

/-- Capacity invariant: for every slot whose resource resolves, the number of
confirmed bookings is at most the resource's capacity. -/
abbrev CapacityInv (st : DBState) : Prop :=
  ∀ s ∈ st.slots, ∀ r ∈ st.resources,
    st.resources.find? (fun x => x.id == s.resourceId) = some r →
    confirmedCount st.bookings s.id ≤ r.capacity

/-- Uniqueness of the primary keys the engine's row lookups rely on. -/
abbrev WellFormed (st : DBState) : Prop :=
  (st.slots.map (fun s => s.id)).Nodup ∧ (st.bookings.map (fun b => b.id)).Nodup

/-! ### Concrete states used by counterexamples, scenario conjuncts and
witnesses -/

/-- Capacity-1 slot with one confirmed and three waitlisted bookings at
positions 1, 2, 3. -/
def stGap : DBState :=
  { users := [⟨"u1", "A", .student⟩, ⟨"u2", "B", .student⟩, ⟨"u3", "C", .student⟩,
              ⟨"u4", "D", .student⟩]
    resources := [⟨"r", "R", 1⟩]
    slots := [⟨"s", "r", 1000000, 1000120, false, none⟩]
    bookings := [⟨"bA", "u1", "s", .confirmed, none⟩, ⟨"bB", "u2", "s", .waitlisted, some 1⟩,
                 ⟨"bC", "u3", "s", .waitlisted, some 2⟩, ⟨"bD", "u4", "s", .waitlisted, some 3⟩]
    recurringRules := []
    blackouts := [] }

/-- Users A, B, C and an empty capacity-1 slot starting at time 1000000. -/
def stABC : DBState :=
  { users := [⟨"A", "Alice", .student⟩, ⟨"B", "Bob", .student⟩, ⟨"C", "Carol", .student⟩]
    resources := [⟨"r", "R", 1⟩]
    slots := [⟨"s", "r", 1000000, 1000120, false, none⟩]
    bookings := []
    recurringRules := []
    blackouts := [] }

/-- The FIFO scenario of the spec: A, B, C book a capacity-1 slot in order,
then A cancels, then B cancels; the pair records who was promoted by each
cancellation. -/
def abcRun : Except ErrCode (Option String × Option String) :=
  (bookSlot 0 "bA" "A" "s" stABC).bind (fun r1 =>
    (bookSlot 0 "bB" "B" "s" r1.2).bind (fun r2 =>
      (bookSlot 0 "bC" "C" "s" r2.2).bind (fun r3 =>
        (cancelBooking 0 300000 "bA" "A" r3.2).bind (fun c1 =>
          (cancelBooking 0 300000 "bB" "B" c1.2).map (fun c2 =>
            (c1.1.promoted, c2.1.promoted))))))

/-- A past slot (start 0) the user already booked, plus a boundary slot
starting exactly at the current time 100. -/
def stPast : DBState :=
  { users := [⟨"u", "U", .student⟩, ⟨"v", "V", .student⟩]
    resources := [⟨"r", "R", 1⟩]
    slots := [⟨"s", "r", 0, 120, false, none⟩, ⟨"s2", "r", 100, 220, false, none⟩]
    bookings := [⟨"b0", "u", "s", .confirmed, none⟩]
    recurringRules := []
    blackouts := [] }

/-- One confirmed booking on a far-future slot, for cancellation. -/
def stOne : DBState :=
  { users := [⟨"u1", "U", .student⟩]
    resources := [⟨"r", "R", 1⟩]
    slots := [⟨"s", "r", 1000000, 1000120, false, none⟩]
    bookings := [⟨"b1", "u1", "s", .confirmed, none⟩]
    recurringRules := []
    blackouts := [] }

/-- The post-state of cancelling `b1` in `stOne`. -/
def stOneAfter : DBState :=
  { stOne with bookings := [] }

/-- A booking whose slot starts 3 minutes (180000 ms) after time 0. -/
def stGrace3 : DBState :=
  { users := [⟨"u6", "U", .student⟩]
    resources := [⟨"r", "R", 1⟩]
    slots := [⟨"s", "r", 180000, 7380000, false, none⟩]
    bookings := [⟨"b6", "u6", "s", .confirmed, none⟩]
    recurringRules := []
    blackouts := [] }

/-- A booking whose slot starts 10 minutes (600000 ms) after time 0. -/
def stGrace10 : DBState :=
  { users := [⟨"u6", "U", .student⟩]
    resources := [⟨"r", "R", 1⟩]
    slots := [⟨"s", "r", 600000, 7800000, false, none⟩]
    bookings := [⟨"b6", "u6", "s", .confirmed, none⟩]
    recurringRules := []
    blackouts := [] }

/-- User `u` confirmed on slot `[600, 720)` of resource `r1`; overlapping
slot `s2 = [660, 780)` on `r1` and identical-time slot `s3` on `r2`. -/
def stOverlap : DBState :=
  { users := [⟨"u", "U", .student⟩]
    resources := [⟨"r1", "R1", 1⟩, ⟨"r2", "R2", 1⟩]
    slots := [⟨"s1", "r1", 600, 720, false, none⟩, ⟨"s2", "r1", 660, 780, false, none⟩,
              ⟨"s3", "r2", 660, 780, false, none⟩]
    bookings := [⟨"b1", "u", "s1", .confirmed, none⟩]
    recurringRules := []
    blackouts := [] }

/-- Same as `stOverlap` but the user's holding on `s1` is only waitlisted. -/
def stOverlapW : DBState :=
  { stOverlap with bookings := [⟨"b1", "u", "s1", .waitlisted, some 1⟩] }

/-- A booking whose actor is about to be looked up and not found. -/
def stNoActor : DBState :=
  { users := [⟨"other", "O", .student⟩]
    resources := [⟨"r", "R", 1⟩]
    slots := [⟨"s", "r", 1000000, 1000120, false, none⟩]
    bookings := [⟨"b1", "u1", "s", .confirmed, none⟩]
    recurringRules := []
    blackouts := [] }

/-! ### Claim C10 -/

/-- C10: `cancelBooking` fails with `NOT_FOUND` whenever the actor id does
not identify an existing user, whatever the rest of the state — the lookup
joins the booking row with the actor's user row, so a missing actor is
indistinguishable from a missing booking. -/
theorem c10_missing_actor_not_found (st : DBState) (now graceMsec : Int)
    (bookingId actorId : String)
    (hu : st.users.find? (fun u => u.id == actorId) = none) :
    cancelBooking now graceMsec bookingId actorId st = .error .NOT_FOUND := by
  unfold cancelBooking
  split
  · rfl
  · split
    · rfl
    · rw [hu]

/-- C10 witness: in `stNoActor` the booking `b1` exists but actor `u1` does
not; cancellation reports `NOT_FOUND`. -/
theorem c10_missing_actor_not_found_witness :
    (stNoActor.users.find? (fun u => u.id == "u1") = none ∧
      stNoActor.bookings.any (fun b => b.id == "b1") = true) ∧
    cancelBooking 0 300000 "b1" "u1" stNoActor = .error .NOT_FOUND :=
  ⟨by decide, c10_missing_actor_not_found stNoActor 0 300000 "b1" "u1" (by decide)⟩

/-! ### Claim C5 -/

/-- C5 counterexample: cancelling the confirmed booking `b1` of `stOne`
succeeds, yet afterwards no booking row with id `b1` exists at all — the row
was deleted, not retained with a `cancelled` status. -/
theorem c5_counterexample :
    (cancelBooking 0 300000 "b1" "u1" stOne).map
        (fun r => r.2.bookings.any (fun b => b.id == "b1")) = .ok false := by
  rfl

/-- C5 as amended: every successful `cancelBooking` deletes the booking row —
afterwards no booking with the cancelled id exists in the table (the schema
has no `cancelled` status), so trivially no later operation transitions that
booking anywhere. -/
theorem c5_cancel_deletes_row (now graceMsec : Int) (bookingId actorId : String)
    (st : DBState) (res : CancelOutcome) (st' : DBState)
    (hok : cancelBooking now graceMsec bookingId actorId st = .ok (res, st')) :
    ∀ b ∈ st'.bookings, b.id ≠ bookingId := by
  have hfil : ∀ b ∈ deleteB bookingId st.bookings, b.id ≠ bookingId := by
    intro b hbmem
    have := (List.mem_filter.mp hbmem).2
    simpa using this
  unfold cancelBooking at hok
  split at hok
  · exact absurd hok (by simp)
  split at hok
  · exact absurd hok (by simp)
  split at hok
  · exact absurd hok (by simp)
  split at hok
  · exact absurd hok (by simp)
  split at hok
  · exact absurd hok (by simp)
  split at hok
  · split at hok
    · obtain ⟨h1, h2⟩ := Prod.mk.inj (Except.ok.inj hok)
      subst h2
      intro b hbmem
      simp only [reindexB, promoteB, List.mem_map] at hbmem
      obtain ⟨b2, ⟨b1, hb1, hb2⟩, hb3⟩ := hbmem
      have hid2 : b2.id = b1.id := by rw [← hb2]; split <;> rfl
      have hid3 : b.id = b2.id := by rw [← hb3]; split <;> rfl
      rw [hid3, hid2]
      exact hfil b1 hb1
    · obtain ⟨h1, h2⟩ := Prod.mk.inj (Except.ok.inj hok)
      subst h2
      intro b hbmem
      exact hfil b hbmem
  · obtain ⟨h1, h2⟩ := Prod.mk.inj (Except.ok.inj hok)
    subst h2
    intro b hbmem
    exact hfil b hbmem


/-- C5 witness: cancelling `b1` in `stOne` yields `stOneAfter`, whose booking
table indeed holds no row with id `b1`. -/
theorem c5_cancel_deletes_row_witness :
    cancelBooking 0 300000 "b1" "u1" stOne = .ok (⟨none⟩, stOneAfter) ∧
    ∀ b ∈ stOneAfter.bookings, b.id ≠ "b1" :=
  ⟨by rfl,
    c5_cancel_deletes_row 0 300000 "b1" "u1" stOne ⟨none⟩ stOneAfter (by rfl)⟩

/-! ### Claim C4 -/

/-- C4 counterexample: in `stPast`, slot `s` exists, is not blocked and
started before the current time 100, and user `u` already holds a booking for
it — yet `bookSlot` fails with `ALREADY_BOOKED`, not `PAST_SLOT`; moreover at
the exact boundary (slot `s2` starts exactly at the current time 100) booking
succeeds instead of failing `PAST_SLOT`. -/
theorem c4_counterexample :
    (stPast.slots.find? (fun s => s.id == "s") = some ⟨"s", "r", 0, 120, false, none⟩ ∧
      (0 : Int) ≤ 100) ∧
    bookSlot 100 "n" "u" "s" stPast = .error .ALREADY_BOOKED ∧
    (stPast.slots.find? (fun s => s.id == "s2") = some ⟨"s2", "r", 100, 220, false, none⟩ ∧
      (bookSlot 100 "n" "v" "s2" stPast).map Prod.fst = .ok .confirmed) := by
  exact ⟨⟨by rfl, by decide⟩, by rfl, by rfl, by rfl⟩

/-- C4 as amended: for a slot that exists and is not blocked, the
`ALREADY_BOOKED` and `OVERLAP_CONFLICT` checks precede the past-slot check —
an existing booking for the slot wins even for a past slot, an overlapping
confirmed booking wins next — and when both earlier checks pass, the call
fails `PAST_SLOT` exactly when `slot.start` is strictly before the current
time (the boundary `slot.start = now` is not rejected). -/
theorem c4_validation_order (now : Int) (newId userId slotId : String) (st : DBState)
    (slot : Slot) (resource : Resource)
    (hs : st.slots.find? (fun s => s.id == slotId) = some slot)
    (hr : st.resources.find? (fun r => r.id == slot.resourceId) = some resource)
    (hnb : slot.blocked = false) :
    (hasExistingB st userId slotId = true →
      bookSlot now newId userId slotId st = .error .ALREADY_BOOKED) ∧
    (hasExistingB st userId slotId = false → hasOverlapB st userId slot = true →
      bookSlot now newId userId slotId st = .error .OVERLAP_CONFLICT) ∧
    (hasExistingB st userId slotId = false → hasOverlapB st userId slot = false →
      (bookSlot now newId userId slotId st = .error .PAST_SLOT ↔ slot.start < now)) := by
  unfold bookSlot
  rw [hs]; dsimp only
  rw [hr]; dsimp only
  rw [hnb]
  simp only [Bool.false_eq_true, if_false]
  refine ⟨fun hex => by rw [hex]; rfl, fun hex hov => by rw [hex, hov]; rfl,
    fun hex hov => ?_⟩
  rw [hex, hov]
  simp only [Bool.false_eq_true, if_false]
  by_cases hpast : slot.start < now
  · simp [hpast]
  · rw [if_neg (by simpa using hpast)]
    constructor
    · intro h
      split at h <;> exact absurd h (by simp)
    · intro h
      exact absurd h hpast

/-- C4 witness: instantiating the amended theorem on `stPast` for user `v`
(no existing booking, no overlap): booking past slot `s` without an existing
booking fails `PAST_SLOT`, and slot `s2` at the boundary does not. -/
theorem c4_validation_order_witness :
    (stPast.slots.find? (fun s => s.id == "s") = some ⟨"s", "r", 0, 120, false, none⟩ ∧
      hasExistingB stPast "v" "s" = false ∧
      hasOverlapB stPast "v" ⟨"s", "r", 0, 120, false, none⟩ = false) ∧
    (bookSlot 100 "n" "v" "s" stPast = .error .PAST_SLOT ↔ (0 : Int) < 100) :=
  ⟨⟨by rfl, by rfl, by rfl⟩,
    (c4_validation_order 100 "n" "v" "s" stPast ⟨"s", "r", 0, 120, false, none⟩ ⟨"r", "R", 1⟩
      (by rfl) (by rfl) (by rfl)).2.2 (by rfl) (by rfl)⟩

/-! ### Claim C2 -/

/-- C2 exhibits a code bug: in `stGap` the waitlist of slot `s` is dense
(positions 1, 2, 3); cancelling the waitlisted booking `bB` (position 1)
succeeds but performs no reindexing — the promotion cascade and its
`waitlistPosition - 1` update run only when the cancelled booking was
confirmed — leaving positions 2, 3: a gapped waitlist, contradicting the
dense-waitlist invariant and the repository's own `maintains waitlist order`
test. -/
theorem c2_code_bug :
    denseWaitlist stGap.bookings "s" = true ∧
    (cancelBooking 0 300000 "bB" "u2" stGap).map
        (fun r => (waitlistPositions r.2.bookings "s", denseWaitlist r.2.bookings "s")) =
      .ok ([2, 3], false) := by
  exact ⟨by decide, by rfl⟩

/-! ### Claim C6 -/

/-- C6: for a found booking whose actor resolves and is authorized, and a
positive configured grace window, cancelling a confirmed booking fails
`GRACE_PERIOD` iff the current time is at or after `slot.start` or
`slot.start - now` is below the window; a waitlisted booking's cancellation
is never grace-restricted (it succeeds outright).  Concretely, with a
5-minute (300000 ms) window, a slot starting in 3 minutes cannot be
cancelled and one starting in 10 minutes can. -/
theorem c6_grace_period (now graceMsec : Int) (bookingId actorId : String) (st : DBState)
    (booking : Booking) (slot : Slot) (actor : User)
    (hb : st.bookings.find? (fun b => b.id == bookingId) = some booking)
    (hs : st.slots.find? (fun s => s.id == booking.slotId) = some slot)
    (hu : st.users.find? (fun u => u.id == actorId) = some actor)
    (hperm : ¬(booking.userId ≠ actorId ∧ actor.role = Role.student))
    (hg : 0 < graceMsec) :
    (booking.status = BStatus.confirmed →
      (cancelBooking now graceMsec bookingId actorId st = .error .GRACE_PERIOD ↔
        (slot.start ≤ now ∨ slot.start - now < graceMsec))) ∧
    (booking.status = BStatus.waitlisted →
      ∃ st', cancelBooking now graceMsec bookingId actorId st = .ok (⟨none⟩, st')) ∧
    cancelBooking 0 300000 "b6" "u6" stGrace3 = .error .GRACE_PERIOD ∧
    (cancelBooking 0 300000 "b6" "u6" stGrace10).map Prod.fst = .ok ⟨none⟩ := by
  have hpermB : (booking.userId != actorId && actor.role == Role.student) = false := by
    cases h : (booking.userId != actorId && actor.role == Role.student) with
    | false => rfl
    | true =>
      have h2 := h
      rw [Bool.and_eq_true] at h2
      exact absurd ⟨by simpa using h2.1, by simpa using h2.2⟩ hperm
  refine ⟨?_, ?_, by rfl, by rfl⟩
  · intro hc
    unfold cancelBooking
    rw [hb]; dsimp only
    rw [hs]; dsimp only
    rw [hu]; dsimp only
    rw [hpermB]
    simp only [Bool.false_eq_true, if_false, hc, beq_self_eq_true, Bool.true_and, if_true]
    by_cases hcond : now > slot.start ∨ slot.start - now < graceMsec
    · have hcondB : (decide (now > slot.start) || decide (slot.start - now < graceMsec)) = true := by
        rcases hcond with h | h <;> simp [h]
      rw [hcondB]
      simp only [if_true, true_iff]
      omega
    · have hcondB : (decide (now > slot.start) || decide (slot.start - now < graceMsec)) = false := by
        push_neg at hcond
        simp [hcond.1, hcond.2, Int.not_lt.mpr]
      rw [hcondB]
      simp only [Bool.false_eq_true, if_false]
      cases hmin : minWaitlisted (slotWaitlist booking.slotId (deleteB bookingId st.bookings)) with
      | none => simp only [hmin]; constructor
                · intro h; exact absurd h (by simp)
                · intro h; exact absurd h (by omega)
      | some next => simp only [hmin]; constructor
                     · intro h; exact absurd h (by simp)
                     · intro h; exact absurd h (by omega)
  · intro hw
    unfold cancelBooking
    rw [hb]; dsimp only
    rw [hs]; dsimp only
    rw [hu]; dsimp only
    rw [hpermB]
    simp only [Bool.false_eq_true, if_false, hw]
    exact ⟨_, rfl⟩

/-- C6 witness: applying the theorem to `stGrace3` (slot starts at 180000,
clock 0, grace 300000 ms, owner cancelling a confirmed booking). -/
theorem c6_grace_period_witness :
    (stGrace3.bookings.find? (fun b => b.id == "b6") =
        some ⟨"b6", "u6", "s", .confirmed, none⟩ ∧ (0 : Int) < 300000) ∧
    (cancelBooking 0 300000 "b6" "u6" stGrace3 = .error .GRACE_PERIOD ↔
      ((180000 : Int) ≤ 0 ∨ (180000 : Int) - 0 < 300000)) :=
  ⟨⟨by rfl, by decide⟩,
    (c6_grace_period 0 300000 "b6" "u6" stGrace3 ⟨"b6", "u6", "s", .confirmed, none⟩
      ⟨"s", "r", 180000, 7380000, false, none⟩ ⟨"u6", "U", .student⟩
      (by rfl) (by rfl) (by rfl) (by simp) (by decide)).1 rfl⟩

/-! ### Claim C7 -/

/-- C7: with the slot found, its resource found, the slot unblocked and no
existing booking by the user on it, `bookSlot` fails `OVERLAP_CONFLICT`
exactly when the user holds another confirmed booking on the same resource
whose slot satisfies `existing.start < slot.end ∧ existing.end > slot.start`;
concretely, `u` confirmed on `[600,720)` of `r1` is rejected for `[660,780)`
of `r1`, succeeds on the identical-time slot of `r2`, and a merely waitlisted
holding does not trigger the conflict. -/
theorem c7_overlap_conflict (now : Int) (newId userId slotId : String) (st : DBState)
    (slot : Slot) (resource : Resource)
    (hs : st.slots.find? (fun s => s.id == slotId) = some slot)
    (hr : st.resources.find? (fun r => r.id == slot.resourceId) = some resource)
    (hnb : slot.blocked = false)
    (hex : hasExistingB st userId slotId = false) :
    (bookSlot now newId userId slotId st = .error .OVERLAP_CONFLICT ↔
      ∃ b ∈ st.bookings, b.userId = userId ∧ b.status = BStatus.confirmed ∧
        ∃ s ∈ st.slots, s.id = b.slotId ∧ s.resourceId = slot.resourceId ∧
          s.start < slot.end_ ∧ s.end_ > slot.start) ∧
    bookSlot 0 "n1" "u" "s2" stOverlap = .error .OVERLAP_CONFLICT ∧
    (bookSlot 0 "n2" "u" "s3" stOverlap).map Prod.fst = .ok .confirmed ∧
    (bookSlot 0 "n3" "u" "s2" stOverlapW).map Prod.fst = .ok .confirmed := by
  refine ⟨?_, by rfl, by rfl, by rfl⟩
  have hbridge : hasOverlapB st userId slot = true ↔
      ∃ b ∈ st.bookings, b.userId = userId ∧ b.status = BStatus.confirmed ∧
        ∃ s ∈ st.slots, s.id = b.slotId ∧ s.resourceId = slot.resourceId ∧
          s.start < slot.end_ ∧ s.end_ > slot.start := by
    simp only [hasOverlapB, List.any_eq_true, Bool.and_eq_true, beq_iff_eq,
      decide_eq_true_eq]
    constructor
    · rintro ⟨b, hbmem, ⟨⟨hbu, hbs⟩, s, hsmem, ⟨⟨hsid, hsr⟩, hlt⟩, hgt⟩⟩
      exact ⟨b, hbmem, hbu, hbs, s, hsmem, hsid, hsr, hlt, hgt⟩
    · rintro ⟨b, hbmem, hbu, hbs, s, hsmem, hsid, hsr, hlt, hgt⟩
      exact ⟨b, hbmem, ⟨⟨hbu, hbs⟩, s, hsmem, ⟨⟨hsid, hsr⟩, hlt⟩, hgt⟩⟩
  unfold bookSlot
  rw [hs]; dsimp only
  rw [hr]; dsimp only
  rw [hnb]
  simp only [Bool.false_eq_true, if_false]
  rw [hex]
  simp only [Bool.false_eq_true, if_false]
  by_cases hov : hasOverlapB st userId slot = true
  · rw [hov]
    simp only [if_true, true_iff]
    exact hbridge.mp hov
  · have hovF : hasOverlapB st userId slot = false := by
      cases h : hasOverlapB st userId slot with
      | false => rfl
      | true => exact absurd h hov
    rw [hovF]
    simp only [Bool.false_eq_true, if_false]
    constructor
    · intro h
      exfalso
      split at h
      · exact absurd h (by simp)
      · split at h <;> exact absurd h (by simp)
    · intro h
      exact absurd (hbridge.mpr h) hov

/-- C7 witness: applying the theorem to `stOverlap` for the overlapping slot
`s2` of resource `r1`. -/
theorem c7_overlap_conflict_witness :
    (stOverlap.slots.find? (fun s => s.id == "s2") =
        some ⟨"s2", "r1", 660, 780, false, none⟩ ∧
      hasExistingB stOverlap "u" "s2" = false) ∧
    (bookSlot 0 "n1" "u" "s2" stOverlap = .error .OVERLAP_CONFLICT ↔
      ∃ b ∈ stOverlap.bookings, b.userId = "u" ∧ b.status = BStatus.confirmed ∧
        ∃ s ∈ stOverlap.slots, s.id = b.slotId ∧ s.resourceId = "r1" ∧
          s.start < 780 ∧ s.end_ > 660) :=
  ⟨⟨by rfl, by rfl⟩,
    (c7_overlap_conflict 0 "n1" "u" "s2" stOverlap ⟨"s2", "r1", 660, 780, false, none⟩
      ⟨"r1", "R1", 1⟩ (by rfl) (by rfl) (by rfl) (by rfl)).1⟩

/-! ### Claim C9 -/

/-- Materializer configuration with one 120-minute slot per day (8:00-10:00). -/
def cfgWk : GenConfig := ⟨8, 10, 120⟩

/-- Fresh slot ids for the C9 materialization run. -/
def idsWk : Nat → String := fun n => "ws" ++ toString n

/-- A resource with a blackout running from the Sunday before the
materialized week (minute 4320) until the day after it ends (minute 17280);
the week itself is `[5760, 15840)` (Monday 1970-01-05). -/
def stWeek : DBState :=
  { users := []
    resources := [⟨"r", "R", 1⟩]
    slots := []
    bookings := []
    recurringRules := []
    blackouts := [⟨"bl", "r", 4320, 17280, "maintenance"⟩] }

/-- C9 counterexample: every one of the 7 materialized slots of `stWeek`
falls entirely inside the recorded blackout window `[4320, 17280]`, yet none
is marked blocked — the blackout fetch `start >= weekStart AND end <=
weekStart + 7 days` discards windows that start before the week or end after
it. -/
theorem c9_counterexample :
    stWeek.blackouts = [⟨"bl", "r", 4320, 17280, "maintenance"⟩] ∧
    (generateWeekSlots cfgWk idsWk "r" 5760 stWeek).map (fun st' =>
      (st'.slots.length,
        st'.slots.all (fun s =>
          decide ((4320 : Int) ≤ s.start) && decide (s.end_ ≤ (17280 : Int)) && !s.blocked))) =
      .ok (7, true) :=
  ⟨rfl, by rfl⟩

/-- C9 as amended: a materialized slot is blackout-blocked iff it falls
entirely within some blackout window of the resource *that is itself recorded
entirely within the materialized week* (`weekStart ≤ b.start` and
`b.end ≤ weekStart + 7 days`); windows extending beyond the week are ignored;
and when the slot is not recurring-blocked, its label is the first such
covering blackout's reason. -/
theorem c9_blackout_week_window (cfg : GenConfig) (ids : Nat → String)
    (resourceId : String) (weekStartDate : Int) (st : DBState) (off i : Nat)
    (hoff : off < 7) (hi : i < slotsPerDay cfg)
    (weekStart : Int) (hws : weekStart = startOfWeek weekStartDate)
    (rules : List RecurringRule)
    (hrules : rules = st.recurringRules.filter (fun r => r.resourceId == resourceId))
    (fb : List Blackout) (hfb : fb = weekBlackouts st.blackouts resourceId weekStart)
    (sStart : Int) (hss : sStart = slotStartAt cfg weekStart off i)
    (sEnd : Int) (hse : sEnd = sStart + cfg.slotLength)
    (d : Int) (hd : d = dayOfWeekAt weekStart off)
    (e : Slot) (he : e = mkWeekSlot cfg rules fb resourceId weekStart ids off i) :
    e ∈ genEntries cfg ids resourceId weekStartDate st ∧
    (e.blocked = true ↔
      isRecurringBlocked rules d sStart sEnd = true ∨
      ∃ b ∈ st.blackouts, b.resourceId = resourceId ∧
        weekStart ≤ b.start ∧ b.end_ ≤ weekStart + 7 * 1440 ∧
        b.start ≤ sStart ∧ sEnd ≤ b.end_) ∧
    (isRecurringBlocked rules d sStart sEnd = false →
      e.blockedLabel =
        (fb.find? (fun b => decide (b.start ≤ sStart) && decide (sEnd ≤ b.end_))).map
          (fun b => b.reason)) := by
  subst hws hrules hfb hss hse hd he
  refine ⟨?_, ?_, ?_⟩
  · simp only [genEntries, computeWeekSlots, List.mem_flatMap, List.mem_map, List.mem_range]
    exact ⟨off, hoff, i, hi, rfl⟩
  · simp only [mkWeekSlot, Bool.or_eq_true]
    refine or_congr Iff.rfl ?_
    simp only [isBlackedOut, List.any_eq_true, Bool.and_eq_true, decide_eq_true_eq,
      weekBlackouts, List.mem_filter, beq_iff_eq]
    constructor
    · rintro ⟨b, ⟨hmem, ⟨hres, hws⟩, hwe⟩, h1, h2⟩
      exact ⟨b, hmem, hres, hws, hwe, h1, h2⟩
    · rintro ⟨b, hmem, hres, hws, hwe, h1, h2⟩
      exact ⟨b, ⟨hmem, ⟨hres, hws⟩, hwe⟩, h1, h2⟩
  · intro hrec
    simp only [mkWeekSlot]
    rw [hrec]
    simp only [computeLabel, Bool.false_eq_true, if_false]

/-- C9 witness: the amended theorem applied to `stWeek`'s first slot (`off =
0`, `i = 0`): it is unblocked precisely because `stWeek`'s only blackout is
not recorded within the week. -/
theorem c9_blackout_week_window_witness :
    ((0 : Nat) < 7 ∧ (0 : Nat) < slotsPerDay cfgWk) ∧
    ((mkWeekSlot cfgWk [] (weekBlackouts stWeek.blackouts "r" (startOfWeek 5760)) "r"
          (startOfWeek 5760) idsWk 0 0).blocked = true ↔
      isRecurringBlocked [] (dayOfWeekAt (startOfWeek 5760) 0)
          (slotStartAt cfgWk (startOfWeek 5760) 0 0)
          (slotStartAt cfgWk (startOfWeek 5760) 0 0 + cfgWk.slotLength) = true ∨
      ∃ b ∈ stWeek.blackouts, b.resourceId = "r" ∧
        startOfWeek 5760 ≤ b.start ∧ b.end_ ≤ startOfWeek 5760 + 7 * 1440 ∧
        b.start ≤ slotStartAt cfgWk (startOfWeek 5760) 0 0 ∧
        slotStartAt cfgWk (startOfWeek 5760) 0 0 + cfgWk.slotLength ≤ b.end_) :=
  ⟨⟨by decide, by decide⟩,
    (c9_blackout_week_window cfgWk idsWk "r" 5760 stWeek 0 0 (by decide) (by decide)
      (startOfWeek 5760) rfl [] rfl
      (weekBlackouts stWeek.blackouts "r" (startOfWeek 5760)) rfl
      (slotStartAt cfgWk (startOfWeek 5760) 0 0) rfl
      (slotStartAt cfgWk (startOfWeek 5760) 0 0 + cfgWk.slotLength) rfl
      (dayOfWeekAt (startOfWeek 5760) 0) rfl
      (mkWeekSlot cfgWk [] (weekBlackouts stWeek.blackouts "r" (startOfWeek 5760)) "r"
        (startOfWeek 5760) idsWk 0 0) rfl).2.1⟩

/-! ### Claim C8 -/

lemma slotKeyMatch_iff (e s : Slot) : slotKeyMatch e s = true ↔ slotKey s = slotKey e := by
  simp [slotKeyMatch, slotKey, Bool.and_eq_true, beq_iff_eq, Prod.ext_iff, and_assoc]

lemma slotKeyMatch_update (e e' s : Slot) :
    slotKeyMatch e { s with blocked := e'.blocked, blockedLabel := e'.blockedLabel } =
      slotKeyMatch e s := by
  simp [slotKeyMatch]

/-- Upserting values the first matching row already carries changes nothing. -/
lemma upsertSlot_eq_self (e : Slot) (l : List Slot) (s : Slot)
    (hf : l.find? (slotKeyMatch e) = some s)
    (hb : s.blocked = e.blocked) (hl : s.blockedLabel = e.blockedLabel) :
    upsertSlot e l = l := by
  induction l with
  | nil => simp at hf
  | cons x xs ih =>
    rw [upsertSlot]
    by_cases hm : slotKeyMatch e x = true
    · rw [if_pos hm]
      rw [List.find?_cons_of_pos _ hm] at hf
      obtain rfl : x = s := by injection hf
      rw [← hb, ← hl]
    · rw [if_neg hm]
      rw [List.find?_cons_of_neg _ hm] at hf
      rw [ih hf]

/-- After an upsert, the first row matching the upserted key carries the
upserted values. -/
lemma find?_upsertSlot_self (e : Slot) (l : List Slot) :
    ∃ s, (upsertSlot e l).find? (slotKeyMatch e) = some s ∧
      s.blocked = e.blocked ∧ s.blockedLabel = e.blockedLabel := by
  induction l with
  | nil =>
    refine ⟨e, ?_, rfl, rfl⟩
    rw [upsertSlot, List.find?_cons_of_pos _ ((slotKeyMatch_iff e e).mpr rfl)]
  | cons x xs ih =>
    rw [upsertSlot]
    by_cases hm : slotKeyMatch e x = true
    · rw [if_pos hm]
      refine ⟨{ x with blocked := e.blocked, blockedLabel := e.blockedLabel }, ?_, rfl, rfl⟩
      rw [List.find?_cons_of_pos]
      rw [slotKeyMatch_update]
      exact hm
    · rw [if_neg hm]
      obtain ⟨s, hfs, hb, hl⟩ := ih
      exact ⟨s, by rw [List.find?_cons_of_neg _ hm]; exact hfs, hb, hl⟩

/-- An upsert under a different key does not change what the lookup of a key
finds. -/
lemma find?_upsertSlot_frame (e e' : Slot) (hne : slotKey e ≠ slotKey e') (l : List Slot) :
    (upsertSlot e' l).find? (slotKeyMatch e) = l.find? (slotKeyMatch e) := by
  induction l with
  | nil =>
    rw [upsertSlot]
    have hm : ¬slotKeyMatch e e' = true := fun h =>
      hne ((slotKeyMatch_iff e e').mp h).symm
    simp [List.find?, Bool.eq_false_iff.mpr hm]
  | cons x xs ih =>
    rw [upsertSlot]
    by_cases hm : slotKeyMatch e' x = true
    · rw [if_pos hm]
      have hx : ¬slotKeyMatch e x = true := by
        intro h
        exact hne (by rw [← (slotKeyMatch_iff e x).mp h, (slotKeyMatch_iff e' x).mp hm])
      rw [List.find?_cons_of_neg, List.find?_cons_of_neg _ hx]
      rw [slotKeyMatch_update]
      exact hx
    · rw [if_neg hm]
      by_cases hx : slotKeyMatch e x = true
      · rw [List.find?_cons_of_pos _ hx, List.find?_cons_of_pos _ hx]
      · rw [List.find?_cons_of_neg _ hx, List.find?_cons_of_neg _ hx, ih]

/-- Folded upserts under keys other than `e`'s do not change what the lookup
of `e`'s key finds. -/
lemma find?_foldl_upsert_frame (e : Slot) (c : List Slot)
    (hnotin : slotKey e ∉ c.map slotKey) (l : List Slot) :
    (c.foldl (fun acc x => upsertSlot x acc) l).find? (slotKeyMatch e) =
      l.find? (slotKeyMatch e) := by
  induction c generalizing l with
  | nil => rfl
  | cons x xs ih =>
    rw [List.foldl_cons]
    have h1 : slotKey e ≠ slotKey x := by
      intro h; exact hnotin (by simp [h])
    have h2 : slotKey e ∉ xs.map slotKey := by
      intro h; exact hnotin (by simp [h])
    rw [ih h2, find?_upsertSlot_frame e x h1 l]

/-- After folding the upserts of a key-unique batch, each batch entry's key
looks up a row carrying that entry's values. -/
lemma find?_foldl_upsert_mem (c : List Slot) (hnd : (c.map slotKey).Nodup)
    (e : Slot) (he : e ∈ c) (l : List Slot) :
    ∃ s, (c.foldl (fun acc x => upsertSlot x acc) l).find? (slotKeyMatch e) = some s ∧
      s.blocked = e.blocked ∧ s.blockedLabel = e.blockedLabel := by
  induction c generalizing l with
  | nil => simp at he
  | cons x xs ih =>
    rw [List.foldl_cons]
    rcases List.mem_cons.mp he with rfl | hmem
    · have hnot : slotKey e ∉ xs.map slotKey := (List.nodup_cons.mp hnd).1
      rw [find?_foldl_upsert_frame e xs hnot]
      exact find?_upsertSlot_self e l
    · exact ih (List.nodup_cons.mp hnd).2 hmem (upsertSlot x l)

/-- A fold of upserts each of which is the identity is the identity. -/
lemma foldl_upsert_id (c : List Slot) (l : List Slot)
    (h : ∀ e ∈ c, upsertSlot e l = l) :
    c.foldl (fun acc x => upsertSlot x acc) l = l := by
  induction c with
  | nil => rfl
  | cons x xs ih =>
    rw [List.foldl_cons, h x (by simp)]
    exact ih (fun e he => h e (by simp [he]))

/-- C8: materialization is idempotent: if the slot rows the run computes have
pairwise distinct `(resourceId, start, end)` keys, then running
`generateWeekSlots` a second time with unchanged rules and blackouts (and any
fresh ids) returns exactly the state the first run produced — same slot rows
including ids, blocked flags and labels, no new rows — and neither run
touches the bookings table. -/
theorem c8_idempotent_materialization (cfg : GenConfig) (ids1 ids2 : Nat → String)
    (resourceId : String) (weekStartDate : Int) (st : DBState)
    (hres : (st.resources.find? (fun r => r.id == resourceId)).isSome = true)
    (hnd : ((genEntries cfg ids1 resourceId weekStartDate st).map slotKey).Nodup) :
    ∃ st1, generateWeekSlots cfg ids1 resourceId weekStartDate st = .ok st1 ∧
      generateWeekSlots cfg ids2 resourceId weekStartDate st1 = .ok st1 ∧
      st1.bookings = st.bookings := by
  obtain ⟨r0, hr0⟩ := Option.isSome_iff_exists.mp hres
  have key : (genEntries cfg ids2 resourceId weekStartDate st).foldl
      (fun acc e => upsertSlot e acc)
      ((genEntries cfg ids1 resourceId weekStartDate st).foldl
        (fun acc e => upsertSlot e acc) st.slots) =
      (genEntries cfg ids1 resourceId weekStartDate st).foldl
        (fun acc e => upsertSlot e acc) st.slots := by
    apply foldl_upsert_id
    intro e2 he2
    simp only [genEntries, computeWeekSlots, List.mem_flatMap, List.mem_map,
      List.mem_range] at he2
    obtain ⟨off, hoff, i, hi, he2⟩ := he2
    subst he2
    have he1 : mkWeekSlot cfg
        (st.recurringRules.filter (fun r => r.resourceId == resourceId))
        (weekBlackouts st.blackouts resourceId (startOfWeek weekStartDate))
        resourceId (startOfWeek weekStartDate) ids1 off i ∈
        genEntries cfg ids1 resourceId weekStartDate st := by
      simp only [genEntries, computeWeekSlots, List.mem_flatMap, List.mem_map, List.mem_range]
      exact ⟨off, hoff, i, hi, rfl⟩
    obtain ⟨s, hfs, hbl, hlb⟩ :=
      find?_foldl_upsert_mem (genEntries cfg ids1 resourceId weekStartDate st) hnd _ he1
        st.slots
    have hkey12 : slotKeyMatch (mkWeekSlot cfg
        (st.recurringRules.filter (fun r => r.resourceId == resourceId))
        (weekBlackouts st.blackouts resourceId (startOfWeek weekStartDate))
        resourceId (startOfWeek weekStartDate) ids2 off i) =
        slotKeyMatch (mkWeekSlot cfg
          (st.recurringRules.filter (fun r => r.resourceId == resourceId))
          (weekBlackouts st.blackouts resourceId (startOfWeek weekStartDate))
          resourceId (startOfWeek weekStartDate) ids1 off i) := rfl
    refine upsertSlot_eq_self _ _ s ?_ ?_ ?_
    · rw [hkey12]
      exact hfs
    · exact hbl
    · exact hlb
  refine ⟨{ st with slots := ((genEntries cfg ids1 resourceId weekStartDate st).foldl (fun acc e => upsertSlot e acc) st.slots) }, ?_, ?_, rfl⟩
  · unfold generateWeekSlots
    rw [hr0]
  · unfold generateWeekSlots
    dsimp only
    rw [hr0]
    exact congrArg (fun x => (Except.ok { st with slots := x } : Except ErrCode DBState)) key

/-- Materializer configuration with two 120-minute slots per day (8:00-12:00). -/
def cfg8 : GenConfig := ⟨8, 12, 120⟩

/-- Fresh slot ids for the first C8 materialization run. -/
def idsA : Nat → String := fun n => "a" ++ toString n

/-- Fresh slot ids for the second C8 materialization run. -/
def idsB : Nat → String := fun n => "b" ++ toString n

/-- A bare resource with one existing booking row, for materializing a week. -/
def stIdem : DBState :=
  { users := [⟨"u", "U", .student⟩]
    resources := [⟨"r", "R", 1⟩]
    slots := []
    bookings := [⟨"bk", "u", "sx", .confirmed, none⟩]
    recurringRules := []
    blackouts := [] }

/-- C8 witness: materializing the week of Monday 1970-01-05 over `stIdem`
twice (with different fresh-id supplies) returns the first run's state
unchanged, bookings untouched. -/
theorem c8_idempotent_materialization_witness :
    ((stIdem.resources.find? (fun r => r.id == "r")).isSome = true ∧
      ((genEntries cfg8 idsA "r" 5760 stIdem).map slotKey).Nodup) ∧
    ∃ st1, generateWeekSlots cfg8 idsA "r" 5760 stIdem = .ok st1 ∧
      generateWeekSlots cfg8 idsB "r" 5760 st1 = .ok st1 ∧
      st1.bookings = stIdem.bookings :=
  ⟨⟨by rfl, by decide⟩,
    c8_idempotent_materialization cfg8 idsA idsB "r" 5760 stIdem (by rfl) (by decide)⟩

/-! ### Counting and lookup lemmas for the booking table -/

/-- Two rows of an id-unique table with equal ids are the same row. -/
lemma booking_id_inj {l : List Booking} (hnd : (l.map (fun b => b.id)).Nodup)
    {a b : Booking} (ha : a ∈ l) (hb : b ∈ l) (h : a.id = b.id) : a = b :=
  List.inj_on_of_nodup_map hnd ha hb h

/-- In an id-unique table, tail rows carry ids different from the head's. -/
lemma ne_id_of_nodup_cons {x : Booking} {xs : List Booking}
    (hnd : ((x :: xs).map (fun b => b.id)).Nodup) :
    ∀ y ∈ xs, y.id ≠ x.id := by
  intro y hy hid
  rw [List.map_cons] at hnd
  exact (List.nodup_cons.mp hnd).1 (List.mem_map.mpr ⟨y, hy, hid⟩)

/-- Deleting row `a` from an id-unique table removes exactly `a`'s
contribution to any count. -/
lemma countP_deleteB (q : Booking → Bool) (l : List Booking) (a : Booking)
    (ha : a ∈ l) (hnd : (l.map (fun b => b.id)).Nodup) :
    (deleteB a.id l).countP q + (if q a then 1 else 0) = l.countP q := by
  induction l with
  | nil => simp at ha
  | cons x xs ih =>
    rw [deleteB, List.filter_cons]
    by_cases hx : x.id = a.id
    · have hax : a = x := by
        rcases List.mem_cons.mp ha with rfl | hmem
        · rfl
        · exact absurd hx.symm (ne_id_of_nodup_cons hnd a hmem)
      have hxs : deleteB a.id xs = xs := by
        rw [deleteB]
        apply List.filter_eq_self.mpr
        intro b hb
        have hbne : b.id ≠ a.id := fun heq =>
          (ne_id_of_nodup_cons hnd b hb) (heq.trans hx.symm)
        simpa using hbne
      rw [if_neg (by simp [hx]), ← deleteB, hxs, hax, List.countP_cons]
    · have hmem : a ∈ xs := by
        rcases List.mem_cons.mp ha with rfl | hmem
        · exact absurd rfl hx
        · exact hmem
      rw [if_pos (by simp [hx]), List.countP_cons, List.countP_cons, ← deleteB]
      have := ih hmem (List.nodup_cons.mp hnd).2
      omega

/-- Mapping a function that touches only the (unique) row with `a`'s id
exchanges `a`'s contribution for `g a`'s in any count. -/
lemma countP_map_upd (q : Booking → Bool) (l : List Booking) (a : Booking)
    (ha : a ∈ l) (hnd : (l.map (fun b => b.id)).Nodup)
    (g : Booking → Booking) (hg : ∀ x, x.id ≠ a.id → g x = x) :
    (l.map g).countP q + (if q a then 1 else 0) =
      l.countP q + (if q (g a) then 1 else 0) := by
  induction l with
  | nil => simp at ha
  | cons x xs ih =>
    rcases List.mem_cons.mp ha with rfl | hmem
    · have hxs : xs.map g = xs := by
        calc xs.map g = xs.map id :=
              List.map_congr_left (fun y hy => hg y (ne_id_of_nodup_cons hnd y hy))
          _ = xs := List.map_id xs
      rw [List.map_cons, hxs, List.countP_cons, List.countP_cons]
      omega
    · have hx : g x = x := hg x (ne_id_of_nodup_cons hnd a hmem).symm
      rw [List.map_cons, hx, List.countP_cons, List.countP_cons]
      have := ih hmem (List.nodup_cons.mp hnd).2
      omega

/-- Corollary: such an update raises any count by at most one. -/
lemma countP_map_upd_le (q : Booking → Bool) (l : List Booking) (a : Booking)
    (ha : a ∈ l) (hnd : (l.map (fun b => b.id)).Nodup)
    (g : Booking → Booking) (hg : ∀ x, x.id ≠ a.id → g x = x) :
    (l.map g).countP q ≤ l.countP q + 1 := by
  have h := countP_map_upd q l a ha hnd g hg
  split at h <;> split at h <;> omega

/-- Reindexing changes only `waitlistPosition`, so any count that ignores
`waitlistPosition` is unchanged. -/
lemma countP_reindexB (q : Booking → Bool)
    (hq : ∀ (x : Booking) (p : Option Nat), q { x with waitlistPosition := p } = q x)
    (sid : String) (np : Option Nat) (l : List Booking) :
    (reindexB sid np l).countP q = l.countP q := by
  rw [reindexB, List.countP_map]
  apply List.countP_congr
  intro x _
  simp only [Function.comp_apply]
  split
  · rw [hq]
  · rfl

/-- The id-uniqueness of a table survives deletion. -/
lemma nodup_deleteB (bookingId : String) (l : List Booking)
    (hnd : (l.map (fun b => b.id)).Nodup) :
    ((deleteB bookingId l).map (fun b => b.id)).Nodup :=
  hnd.sublist ((List.filter_sublist l).map (fun b => b.id))

/-- What one `minStep` can return: a row no larger than the scanned one,
either the scanned row itself or the carried accumulator. -/
lemma minStep_le (a : Option Booking) (b c : Booking) (h : minStep a b = some c) :
    posKey c.waitlistPosition ≤ posKey b.waitlistPosition ∧ (c = b ∨ a = some c) := by
  cases a with
  | none =>
    rw [minStep] at h
    injection h with h
    subst h
    exact ⟨le_refl _, Or.inl rfl⟩
  | some d =>
    rw [minStep] at h
    split at h
    · injection h with h
      subst h
      exact ⟨le_refl _, Or.inl rfl⟩
    · rename_i hlt
      injection h with h
      subst h
      exact ⟨le_of_not_lt hlt, Or.inr rfl⟩

/-- The `ORDER BY waitlistPosition ASC LIMIT 1` scan returns a member of the
scanned list (or the seed) of minimal sort key. -/
lemma minFold_spec (l : List Booking) : ∀ (acc : Option Booking) (a : Booking),
    l.foldl minStep acc = some a →
    (acc = some a ∨ a ∈ l) ∧
    (∀ b, acc = some b → posKey a.waitlistPosition ≤ posKey b.waitlistPosition) ∧
    (∀ x ∈ l, posKey a.waitlistPosition ≤ posKey x.waitlistPosition) := by
  induction l with
  | nil =>
    intro acc a h
    have h' : acc = some a := h
    refine ⟨Or.inl h', fun b hb => ?_, by simp⟩
    rw [h'] at hb
    injection hb with hb
    rw [hb]
  | cons x xs ih =>
    intro acc a h
    rw [List.foldl_cons] at h
    obtain ⟨hmem, haccmin, hxsmin⟩ := ih _ a h
    have hsome : ∃ c, minStep acc x = some c := by
      cases acc with
      | none => exact ⟨x, rfl⟩
      | some d =>
        rw [minStep]
        split
        · exact ⟨x, rfl⟩
        · exact ⟨d, rfl⟩
    obtain ⟨c, hc⟩ := hsome
    obtain ⟨hcx, hcor⟩ := minStep_le acc x c hc
    have hac : posKey a.waitlistPosition ≤ posKey c.waitlistPosition := haccmin c hc
    refine ⟨?_, ?_, ?_⟩
    · rcases hmem with hacc | hxs
      · rcases (minStep_le acc x a hacc).2 with rfl | haccval
        · exact Or.inr (List.mem_cons_self _ _)
        · exact Or.inl haccval
      · exact Or.inr (List.mem_cons_of_mem x hxs)
    · intro b hb
      subst hb
      rw [minStep] at hc
      split at hc
      · rename_i hlt
        injection hc with hc
        subst hc
        exact le_trans hac (le_of_lt hlt)
      · injection hc with hc
        subst hc
        exact hac
    · intro y hy
      rcases List.mem_cons.mp hy with rfl | hys
      · exact le_trans hac hcx
      · exact hxsmin y hys

/-- Specification of the promotion query: the returned row is a member of the
queried list with the smallest sort key. -/
lemma minWaitlisted_spec {l : List Booking} {a : Booking}
    (h : minWaitlisted l = some a) :
    a ∈ l ∧ ∀ x ∈ l, posKey a.waitlistPosition ≤ posKey x.waitlistPosition := by
  rw [minWaitlisted] at h
  obtain ⟨hmem, _, hmin⟩ := minFold_spec l none a h
  rcases hmem with hacc | hmem
  · simp at hacc
  · exact ⟨hmem, hmin⟩

/-- The promotion query succeeds on a non-empty waitlist. -/
lemma minWaitlisted_isSome {l : List Booking} (h : l ≠ []) :
    ∃ a, minWaitlisted l = some a := by
  have haux : ∀ (m : List Booking) (c : Booking), ∃ a, m.foldl minStep (some c) = some a := by
    intro m
    induction m with
    | nil => exact fun c => ⟨c, rfl⟩
    | cons y ys ih =>
      intro c
      rw [List.foldl_cons, minStep]
      split
      · exact ih y
      · exact ih c
  cases l with
  | nil => exact absurd rfl h
  | cons x xs =>
    rw [minWaitlisted, List.foldl_cons]
    exact haux xs x

/-- Structure of every successful `cancelBooking`: the found booking row is
deleted, and when it was confirmed and a waitlisted row for its slot
remained, the `ORDER BY` minimum is promoted and the tail reindexed;
otherwise the table is just the deletion.  No other table changes. -/
lemma cancelBooking_ok_shape (now graceMsec : Int) (bookingId actorId : String)
    (st : DBState) (res : CancelOutcome) (st' : DBState)
    (hok : cancelBooking now graceMsec bookingId actorId st = .ok (res, st')) :
    st'.users = st.users ∧ st'.resources = st.resources ∧ st'.slots = st.slots ∧
    ∃ b0, st.bookings.find? (fun b => b.id == bookingId) = some b0 ∧
      ((b0.status = BStatus.confirmed ∧
        ∃ next,
          minWaitlisted (slotWaitlist b0.slotId (deleteB bookingId st.bookings)) = some next ∧
          res = ⟨some next.userId⟩ ∧
          st'.bookings = reindexB b0.slotId next.waitlistPosition
            (promoteB next.id (deleteB bookingId st.bookings))) ∨
       ((b0.status = BStatus.waitlisted ∨
          minWaitlisted (slotWaitlist b0.slotId (deleteB bookingId st.bookings)) = none) ∧
        res = ⟨none⟩ ∧ st'.bookings = deleteB bookingId st.bookings)) := by
  unfold cancelBooking at hok
  split at hok
  · exact absurd hok (by simp)
  rename_i b0 heqb
  split at hok
  · exact absurd hok (by simp)
  rename_i slot0 heqs
  split at hok
  · exact absurd hok (by simp)
  rename_i actor0 hequ
  split at hok
  · exact absurd hok (by simp)
  split at hok
  · exact absurd hok (by simp)
  split at hok
  · rename_i hconf
    split at hok
    · rename_i next hnext
      obtain ⟨h1, h2⟩ := Prod.mk.inj (Except.ok.inj hok)
      subst h2
      exact ⟨rfl, rfl, rfl, b0, heqb,
        Or.inl ⟨by simpa using hconf, next, hnext, h1.symm, rfl⟩⟩
    · rename_i hnone
      obtain ⟨h1, h2⟩ := Prod.mk.inj (Except.ok.inj hok)
      subst h2
      exact ⟨rfl, rfl, rfl, b0, heqb, Or.inr ⟨Or.inr hnone, h1.symm, rfl⟩⟩
  · rename_i hnconf
    obtain ⟨h1, h2⟩ := Prod.mk.inj (Except.ok.inj hok)
    subst h2
    have hwl : b0.status = BStatus.waitlisted := by
      cases h : b0.status
      · exact absurd (by simp [h]) hnconf
      · rfl
    exact ⟨rfl, rfl, rfl, b0, heqb, Or.inr ⟨Or.inl hwl, h1.symm, rfl⟩⟩

/-! ### Claim C1 -/

/-- Two confirmed users, one free seat, slot `s` of a capacity-2 resource. -/
def stC1 : DBState :=
  { users := [⟨"u1", "A", .student⟩, ⟨"u2", "B", .student⟩]
    resources := [⟨"r", "R", 2⟩]
    slots := [⟨"s", "r", 1000000, 1000120, false, none⟩]
    bookings := [⟨"b1", "u1", "s", .confirmed, none⟩]
    recurringRules := []
    blackouts := [] }

/-- The state after `u2` books `s` in `stC1`. -/
def stC1After : DBState :=
  { stC1 with bookings := stC1.bookings ++ [⟨"nb", "u2", "s", .confirmed, none⟩] }

/-- C1: starting from a well-formed state satisfying the capacity invariant,
every committed `bookSlot` and `cancelBooking` preserves it; `bookSlot`
returns `confirmed` only when the slot's confirmed count was strictly below
its resource's capacity and waitlists exactly when it was not; and a
committed cancellation turns at most one previously waitlisted booking into a
confirmed one. -/
theorem c1_capacity_invariant (st : DBState) (hwf : WellFormed st) (hinv : CapacityInv st) :
    (∀ (now : Int) (newId userId slotId : String) (out : BookOutcome) (st' : DBState),
      bookSlot now newId userId slotId st = .ok (out, st') →
      CapacityInv st' ∧
      (out = BookOutcome.confirmed →
        ∃ slot resource, st.slots.find? (fun s => s.id == slotId) = some slot ∧
          st.resources.find? (fun r => r.id == slot.resourceId) = some resource ∧
          confirmedCount st.bookings slotId < resource.capacity) ∧
      (∀ position, out = BookOutcome.waitlisted position →
        ∃ slot resource, st.slots.find? (fun s => s.id == slotId) = some slot ∧
          st.resources.find? (fun r => r.id == slot.resourceId) = some resource ∧
          resource.capacity ≤ confirmedCount st.bookings slotId)) ∧
    (∀ (now graceMsec : Int) (bookingId actorId : String) (res : CancelOutcome) (st' : DBState),
      cancelBooking now graceMsec bookingId actorId st = .ok (res, st') →
      CapacityInv st' ∧
      st'.bookings.countP (fun b => b.status == BStatus.confirmed &&
        st.bookings.any (fun c => c.id == b.id && c.status == BStatus.waitlisted)) ≤ 1) := by
  constructor
  · intro now newId userId slotId out st' hok
    unfold bookSlot at hok
    split at hok
    · exact absurd hok (by simp)
    rename_i slot heqs
    split at hok
    · exact absurd hok (by simp)
    rename_i resource heqr
    split at hok
    · exact absurd hok (by simp)
    split at hok
    · exact absurd hok (by simp)
    split at hok
    · exact absurd hok (by simp)
    split at hok
    · exact absurd hok (by simp)
    split at hok
    · rename_i hcap
      obtain ⟨h1, h2⟩ := Prod.mk.inj (Except.ok.inj hok)
      subst h2
      have hcap' : confirmedCount st.bookings slotId < resource.capacity :=
        of_decide_eq_true hcap
      refine ⟨?_, fun _ => ⟨slot, resource, heqs, heqr, hcap'⟩, ?_⟩
      · intro s hs r hrm hr
        dsimp only at hs hrm hr ⊢
        rw [confirmedCount, List.countP_append]
        by_cases hid : slotId = s.id
        · have hsl : slot ∈ st.slots := List.mem_of_find?_eq_some heqs
          have hslid : slot.id = slotId := by simpa using List.find?_some heqs
          have hseq : s = slot :=
            List.inj_on_of_nodup_map hwf.1 hs hsl (by rw [hslid, hid])
          have hre : r = resource := by
            rw [hseq] at hr
            exact Option.some.inj (hr.symm.trans heqr)
          have hcnt : List.countP (fun b => b.slotId == s.id && b.status == BStatus.confirmed)
              ([⟨newId, userId, slotId, BStatus.confirmed, none⟩] : List Booking) = 1 := by
            simp [List.countP_cons, hid]
          rw [hcnt, hre]
          have hpre : List.countP (fun b => b.slotId == s.id && b.status == BStatus.confirmed)
              st.bookings = confirmedCount st.bookings slotId := by
            rw [confirmedCount, hid]
          omega
        · have hcnt : List.countP (fun b => b.slotId == s.id && b.status == BStatus.confirmed)
              ([⟨newId, userId, slotId, BStatus.confirmed, none⟩] : List Booking) = 0 := by
            simp [List.countP_cons, hid]
          rw [hcnt]
          have hfin := hinv s hs r hrm hr
          rw [confirmedCount] at hfin
          omega
      · intro position hcontra
        rw [← h1] at hcontra
        exact absurd hcontra (by simp)
    · rename_i hcap
      obtain ⟨h1, h2⟩ := Prod.mk.inj (Except.ok.inj hok)
      subst h2
      have hcap' : resource.capacity ≤ confirmedCount st.bookings slotId :=
        Nat.le_of_not_lt (fun hlt => hcap (by simpa using hlt))
      refine ⟨?_, ?_, fun position _ => ⟨slot, resource, heqs, heqr, hcap'⟩⟩
      · intro s hs r hrm hr
        dsimp only at hs hrm hr ⊢
        rw [confirmedCount, List.countP_append]
        have hcnt : List.countP (fun b => b.slotId == s.id && b.status == BStatus.confirmed)
            ([⟨newId, userId, slotId, BStatus.waitlisted,
              some (maxWaitlistPosition st.bookings slotId + 1)⟩] : List Booking) = 0 := by
          simp [List.countP_cons]
        rw [hcnt]
        have hfin := hinv s hs r hrm hr
        rw [confirmedCount] at hfin
        omega
      · intro hcontra
        rw [← h1] at hcontra
        exact absurd hcontra (by simp)
  · intro now graceMsec bookingId actorId res st' hok
    obtain ⟨hust, hrst, hsst, b0, heqb, hcases⟩ :=
      cancelBooking_ok_shape now graceMsec bookingId actorId st res st' hok
    have hb0mem : b0 ∈ st.bookings := List.mem_of_find?_eq_some heqb
    have hb0id : b0.id = bookingId := by simpa using List.find?_some heqb
    have hzero : (deleteB bookingId st.bookings).countP
        (fun b => b.status == BStatus.confirmed &&
          st.bookings.any (fun c => c.id == b.id && c.status == BStatus.waitlisted)) = 0 := by
      rw [List.countP_eq_zero]
      intro x hx hq0
      have hxmem : x ∈ st.bookings := List.mem_of_mem_filter hx
      rw [Bool.and_eq_true] at hq0
      have hxconf : x.status = BStatus.confirmed := by simpa using hq0.1
      rw [List.any_eq_true] at hq0
      obtain ⟨c, hcmem, hc⟩ := hq0.2
      rw [Bool.and_eq_true] at hc
      have hcid : c.id = x.id := by simpa using hc.1
      have hcwait : c.status = BStatus.waitlisted := by simpa using hc.2
      have : c = x := booking_id_inj hwf.2 hcmem hxmem hcid
      rw [this] at hcwait
      rw [hxconf] at hcwait
      exact absurd hcwait (by simp)
    rcases hcases with ⟨hconf, next, hnext, hres, hbk⟩ | ⟨hwhy, hres, hbk⟩
    · obtain ⟨hnmem', hnmin⟩ := minWaitlisted_spec hnext
      rw [slotWaitlist] at hnmem'
      have hnfacts := List.mem_filter.mp hnmem'
      have hndel : next ∈ deleteB bookingId st.bookings := hnfacts.1
      have hnprop := hnfacts.2
      rw [Bool.and_eq_true] at hnprop
      have hnslot : next.slotId = b0.slotId := by simpa using hnprop.1
      have hnwait : next.status = BStatus.waitlisted := by simpa using hnprop.2
      have hnd1 : ((deleteB bookingId st.bookings).map (fun b => b.id)).Nodup :=
        nodup_deleteB _ _ hwf.2
      constructor
      · intro s hs r hrm hr
        rw [hsst] at hs
        rw [hrst] at hrm hr
        have hgoal : confirmedCount st'.bookings s.id ≤ r.capacity := by
          rw [hbk, confirmedCount,
            countP_reindexB (fun b => b.slotId == s.id && b.status == BStatus.confirmed)
              (fun x p => rfl) b0.slotId next.waitlistPosition, promoteB]
          have hupd := countP_map_upd
            (fun b => b.slotId == s.id && b.status == BStatus.confirmed)
            (deleteB bookingId st.bookings) next hndel hnd1
            (fun b => if b.id == next.id then
              { b with status := BStatus.confirmed, waitlistPosition := none } else b)
            (fun x hx => if_neg (by simpa using hx))
          have hgnext : (fun b => if b.id == next.id then
              { b with status := BStatus.confirmed, waitlistPosition := none } else b) next =
              { next with status := BStatus.confirmed, waitlistPosition := none } :=
            if_pos (by simp)
          rw [hgnext] at hupd
          have hqnext : (fun b => b.slotId == s.id && b.status == BStatus.confirmed) next
              = false := by
            simp [hnwait]
          have hq_eq : (fun b => b.slotId == s.id && b.status == BStatus.confirmed)
              { next with status := BStatus.confirmed, waitlistPosition := none } =
              (fun b => b.slotId == s.id && b.status == BStatus.confirmed) b0 := by
            simp only [hnslot, hconf]
          have hdel := countP_deleteB
            (fun b => b.slotId == s.id && b.status == BStatus.confirmed)
            st.bookings b0 hb0mem hwf.2
          rw [hb0id] at hdel
          rw [hqnext] at hupd
          rw [hq_eq] at hupd
          have hfin := hinv s hs r hrm hr
          rw [confirmedCount] at hfin
          simp only [Bool.false_eq_true, if_false, add_zero] at hupd
          by_cases hqb : (b0.slotId == s.id && b0.status == BStatus.confirmed) = true
          · simp only [hqb, if_true] at hupd hdel
            omega
          · have hqb' : (b0.slotId == s.id && b0.status == BStatus.confirmed) = false := by
              cases h : (b0.slotId == s.id && b0.status == BStatus.confirmed)
              · rfl
              · exact absurd h hqb
            simp only [hqb', Bool.false_eq_true, if_false, add_zero] at hupd hdel
            omega
        exact hgoal
      · rw [hbk,
          countP_reindexB (fun b => b.status == BStatus.confirmed &&
            st.bookings.any (fun c => c.id == b.id && c.status == BStatus.waitlisted))
            (fun x p => rfl) b0.slotId next.waitlistPosition, promoteB]
        have hle := countP_map_upd_le
          (fun b => b.status == BStatus.confirmed &&
            st.bookings.any (fun c => c.id == b.id && c.status == BStatus.waitlisted))
          (deleteB bookingId st.bookings) next hndel hnd1
          (fun b => if b.id == next.id then
            { b with status := BStatus.confirmed, waitlistPosition := none } else b)
          (fun x hx => if_neg (by simpa using hx))
        rw [hzero] at hle
        omega
    · constructor
      · intro s hs r hrm hr
        rw [hsst] at hs
        rw [hrst] at hrm hr
        rw [hbk, confirmedCount, deleteB, List.countP_filter]
        have hfin := hinv s hs r hrm hr
        rw [confirmedCount] at hfin
        have hmono : st.bookings.countP (fun b =>
            (b.slotId == s.id && b.status == BStatus.confirmed) && !(b.id == bookingId)) ≤
            st.bookings.countP (fun b => b.slotId == s.id && b.status == BStatus.confirmed) :=
          List.countP_mono_left (fun x _ h => by
            rw [Bool.and_eq_true] at h
            exact h.1)
        omega
      · rw [hbk, hzero]
        omega

/-- C1 witness: `stC1` is well-formed and satisfies the capacity invariant;
booking its free seat commits and the invariant still holds afterwards. -/
theorem c1_capacity_invariant_witness :
    (WellFormed stC1 ∧ CapacityInv stC1 ∧
      bookSlot 0 "nb" "u2" "s" stC1 = .ok (.confirmed, stC1After)) ∧
    CapacityInv stC1After :=
  ⟨⟨by decide, by decide, by rfl⟩,
    ((c1_capacity_invariant stC1 (by decide) (by decide)).1 0 "nb" "u2" "s"
      .confirmed stC1After (by rfl)).1⟩

/-! ### Claim C3 -/

/-- Capacity-1 slot with A confirmed and B waitlisted at position 1. -/
def stW3 : DBState :=
  { users := [⟨"A", "Alice", .student⟩, ⟨"B", "Bob", .student⟩]
    resources := [⟨"r", "R", 1⟩]
    slots := [⟨"s", "r", 1000000, 1000120, false, none⟩]
    bookings := [⟨"bA", "A", "s", .confirmed, none⟩, ⟨"bB", "B", "s", .waitlisted, some 1⟩]
    recurringRules := []
    blackouts := [] }

/-- The state after A's confirmed booking is cancelled in `stW3`: B promoted. -/
def stW3After : DBState :=
  { stW3 with bookings := [⟨"bB", "B", "s", .confirmed, none⟩] }

/-- C3: when a committed cancellation hits a confirmed booking of a slot that
still holds a waitlisted booking (all waitlisted rows carrying positions),
the engine promotes a waitlisted booking of minimal position `np` for that
slot — reporting its user as `promoted`, its row becoming confirmed with the
position cleared — and every other waitlisted booking of the slot keeps its
position if it was below `np` and is decremented by one if it was above; and
in the A, B, C capacity-1 scenario the cancellations promote B then C. -/
theorem c3_fifo_promotion (st : DBState) (hwf : WellFormed st)
    (now graceMsec : Int) (bookingId actorId : String) (res : CancelOutcome) (st' : DBState)
    (hok : cancelBooking now graceMsec bookingId actorId st = .ok (res, st'))
    (b0 : Booking) (heqb : st.bookings.find? (fun b => b.id == bookingId) = some b0)
    (hconf : b0.status = BStatus.confirmed)
    (w0 : Booking) (hw0mem : w0 ∈ st.bookings) (hw0slot : w0.slotId = b0.slotId)
    (hw0wait : w0.status = BStatus.waitlisted)
    (hpos : ∀ w ∈ st.bookings, w.status = BStatus.waitlisted → w.waitlistPosition.isSome) :
    (∃ next np,
      next ∈ st.bookings ∧ next.slotId = b0.slotId ∧ next.status = BStatus.waitlisted ∧
      next.waitlistPosition = some np ∧
      res = ⟨some next.userId⟩ ∧
      (∀ w ∈ st.bookings, w.slotId = b0.slotId → w.status = BStatus.waitlisted →
        ∀ q, w.waitlistPosition = some q → np ≤ q) ∧
      (∃ row ∈ st'.bookings, row.id = next.id ∧ row.userId = next.userId ∧
        row.status = BStatus.confirmed ∧ row.waitlistPosition = none) ∧
      (∀ w ∈ st.bookings, w.slotId = b0.slotId → w.status = BStatus.waitlisted →
        w.id ≠ next.id → ∀ q, w.waitlistPosition = some q →
          ∃ row ∈ st'.bookings, row.id = w.id ∧ row.status = BStatus.waitlisted ∧
            row.waitlistPosition = some (if np < q then q - 1 else q))) ∧
    abcRun = .ok (some "B", some "C") := by
  refine ⟨?_, by rfl⟩
  obtain ⟨hust, hrst, hsst, b0', heqb', hcases⟩ :=
    cancelBooking_ok_shape now graceMsec bookingId actorId st res st' hok
  rw [heqb] at heqb'
  obtain rfl : b0 = b0' := by injection heqb'
  have hb0mem : b0 ∈ st.bookings := List.mem_of_find?_eq_some heqb
  have hb0id : b0.id = bookingId := by simpa using List.find?_some heqb
  have hwl_mem : ∀ w ∈ st.bookings, w.slotId = b0.slotId → w.status = BStatus.waitlisted →
      w ∈ slotWaitlist b0.slotId (deleteB bookingId st.bookings) := by
    intro w hw hwslot hwwait
    have hwid : w.id ≠ bookingId := by
      intro hid
      have : w = b0 := booking_id_inj hwf.2 hw hb0mem (hid.trans hb0id.symm)
      rw [this, hconf] at hwwait
      exact absurd hwwait (by simp)
    rw [slotWaitlist]
    refine List.mem_filter.mpr ⟨?_, by simp [hwslot, hwwait]⟩
    rw [deleteB]
    exact List.mem_filter.mpr ⟨hw, by simpa using hwid⟩
  rcases hcases with ⟨_, next, hnext, hres, hbk⟩ | ⟨hwhy, hres, hbk⟩
  · obtain ⟨hnmem', hnmin⟩ := minWaitlisted_spec hnext
    have hnfacts := List.mem_filter.mp (by rw [slotWaitlist] at hnmem'; exact hnmem')
    have hndel : next ∈ deleteB bookingId st.bookings := hnfacts.1
    have hnprop := hnfacts.2
    rw [Bool.and_eq_true] at hnprop
    have hnslot : next.slotId = b0.slotId := by simpa using hnprop.1
    have hnwait : next.status = BStatus.waitlisted := by simpa using hnprop.2
    have hnmemst : next ∈ st.bookings := List.mem_of_mem_filter hndel
    obtain ⟨np, hnp⟩ := Option.isSome_iff_exists.mp (hpos next hnmemst hnwait)
    refine ⟨next, np, hnmemst, hnslot, hnwait, hnp, hres, ?_, ?_, ?_⟩
    · intro w hw hwslot hwwait q hq
      have := hnmin w (hwl_mem w hw hwslot hwwait)
      rw [hnp, hq] at this
      simp only [posKey] at this
      omega
    · rw [hbk, reindexB, promoteB]
      refine ⟨{ next with status := BStatus.confirmed, waitlistPosition := none }, ?_,
        rfl, rfl, rfl, rfl⟩
      have h1 := List.mem_map_of_mem (fun b => if b.id == next.id then
        { b with status := BStatus.confirmed, waitlistPosition := none } else b) hndel
      simp only [beq_self_eq_true, if_true] at h1
      have h2 := List.mem_map_of_mem (fun b =>
        if b.slotId == b0.slotId && b.status == BStatus.waitlisted &&
            posGT b.waitlistPosition next.waitlistPosition then
          { b with waitlistPosition := b.waitlistPosition.map (fun p => p - 1) }
        else b) h1
      simp only [show (BStatus.confirmed == BStatus.waitlisted) = false from rfl,
        Bool.and_false, Bool.false_and, Bool.false_eq_true, if_false] at h2
      exact h2
    · intro w hw hwslot hwwait hwid q hq
      have hwdel : w ∈ deleteB bookingId st.bookings :=
        List.mem_of_mem_filter (by
          have := hwl_mem w hw hwslot hwwait
          rw [slotWaitlist] at this
          exact this)
      have h1 := List.mem_map_of_mem (fun b => if b.id == next.id then
        { b with status := BStatus.confirmed, waitlistPosition := none } else b) hwdel
      have hwneq : (w.id == next.id) = false := by simpa using hwid
      simp only [hwneq, Bool.false_eq_true, if_false] at h1
      have h2 := List.mem_map_of_mem (fun b =>
        if b.slotId == b0.slotId && b.status == BStatus.waitlisted &&
            posGT b.waitlistPosition next.waitlistPosition then
          { b with waitlistPosition := b.waitlistPosition.map (fun p => p - 1) }
        else b) h1
      rw [hbk, reindexB, promoteB]
      by_cases hlt : np < q
      · have hcond : (w.slotId == b0.slotId && w.status == BStatus.waitlisted &&
            posGT w.waitlistPosition next.waitlistPosition) = true := by
          simp [hwslot, hwwait, hq, hnp, posGT, hlt]
        simp only [hcond, if_true] at h2
        refine ⟨{ w with waitlistPosition := (w.waitlistPosition).map (fun p => p - 1) },
          h2, rfl, hwwait, ?_⟩
        rw [hq]
        simp [hlt]
      · have hcond : (w.slotId == b0.slotId && w.status == BStatus.waitlisted &&
            posGT w.waitlistPosition next.waitlistPosition) = false := by
          simp [hwslot, hwwait, hq, hnp, posGT, hlt]
        simp only [hcond, Bool.false_eq_true, if_false] at h2
        exact ⟨w, h2, rfl, hwwait, by rw [hq]; simp [hlt]⟩
  · exfalso
    rcases hwhy with hwl | hnone
    · rw [hconf] at hwl
      exact absurd hwl (by simp)
    · have hw0in := hwl_mem w0 hw0mem hw0slot hw0wait
      obtain ⟨a, ha⟩ := minWaitlisted_isSome (List.ne_nil_of_mem hw0in)
      rw [ha] at hnone
      exact absurd hnone (by simp)

/-- C3 witness: cancelling A's confirmed booking on `stW3` (B waitlisted at
position 1) promotes B. -/
theorem c3_fifo_promotion_witness :
    (WellFormed stW3 ∧
      cancelBooking 0 300000 "bA" "A" stW3 = .ok (⟨some "B"⟩, stW3After) ∧
      stW3.bookings.find? (fun b => b.id == "bA") =
        some ⟨"bA", "A", "s", .confirmed, none⟩) ∧
    ((∃ next np,
      next ∈ stW3.bookings ∧ next.slotId = "s" ∧ next.status = BStatus.waitlisted ∧
      next.waitlistPosition = some np ∧
      (⟨some "B"⟩ : CancelOutcome) = ⟨some next.userId⟩ ∧
      (∀ w ∈ stW3.bookings, w.slotId = "s" → w.status = BStatus.waitlisted →
        ∀ q, w.waitlistPosition = some q → np ≤ q) ∧
      (∃ row ∈ stW3After.bookings, row.id = next.id ∧ row.userId = next.userId ∧
        row.status = BStatus.confirmed ∧ row.waitlistPosition = none) ∧
      (∀ w ∈ stW3.bookings, w.slotId = "s" → w.status = BStatus.waitlisted →
        w.id ≠ next.id → ∀ q, w.waitlistPosition = some q →
          ∃ row ∈ stW3After.bookings, row.id = w.id ∧ row.status = BStatus.waitlisted ∧
            row.waitlistPosition = some (if np < q then q - 1 else q))) ∧
    abcRun = .ok (some "B", some "C")) :=
  ⟨⟨by decide, by rfl, by rfl⟩,
    c3_fifo_promotion stW3 (by decide) 0 300000 "bA" "A" ⟨some "B"⟩ stW3After (by rfl)
      ⟨"bA", "A", "s", .confirmed, none⟩ (by rfl) rfl
      ⟨"bB", "B", "s", .waitlisted, some 1⟩ (by decide) rfl rfl (by decide)⟩

end Engine
